import Mathlib

/-!
# Verification of the lineBotfood fast-path request-handling layer

Shallow embedding of the fast-path components of the lineBotfood webhook
backend, together with proofs of the specification claims about them:

* `EventDeduplicator` from `Conrtoller/LineWebHookRESTController.py`
* `SimpleCache` from `Service/SimpleCache.py`
* `ConnectionPool` from `Service/ConnectionFactory.py`
* `UnifiedResponseService` from `Service/UnifiedResponseService.py`

Modelling conventions:

* Python `dict`s are insertion-ordered association lists; `d[k] = v` keeps
  the position of an existing key and appends a fresh key at the end, and
  `del d[k]` removes the binding, exactly as the list operations below do.
* Wall-clock time (`time.time()`) is passed in explicitly as a `Nat` number
  of seconds; Python's `now - ts > limit` on non-negative reals coincides
  with truncated `Nat` subtraction for the orderings used here.
* `hashlib.md5(s).hexdigest()` is a deterministic function of `s`; the code
  uses nothing about it beyond determinism (collisions are assumed absent),
  so the fingerprint is modelled as the pre-hash string `s` itself.
* Python's stable `sorted` is modelled by Mathlib's stable
  `List.insertionSort`.
-/

namespace LineBotFood

/-! ## Association-list primitives (Python `dict` semantics) -/

/-- `d.get(k)` / `d[k]` on an insertion-ordered dict. -/
def alookup {κ β : Type} [DecidableEq κ] (k : κ) : List (κ × β) → Option β
  | [] => none
  | (a, b) :: t => if a = k then some b else alookup k t

/-- `d[k] = v`: overwrite in place, or append a fresh key at the end. -/
def aset {κ β : Type} [DecidableEq κ] (k : κ) (v : β) : List (κ × β) → List (κ × β)
  | [] => [(k, v)]
  | (a, b) :: t => if a = k then (k, v) :: t else (a, b) :: aset k v t

/-- `del d[k]`. -/
def aerase {κ β : Type} [DecidableEq κ] (k : κ) (l : List (κ × β)) : List (κ × β) :=
  l.filter (fun p => !decide (p.1 = k))

theorem alookup_aset_self {κ β : Type} [DecidableEq κ] (k : κ) (v : β) (l : List (κ × β)) :
    alookup k (aset k v l) = some v := by
  induction l with
  | nil => simp [aset, alookup]
  | cons hd tl ih =>
    obtain ⟨a, b⟩ := hd
    by_cases h : a = k
    · simp [aset, alookup, h]
    · simp [aset, alookup, h, ih]

theorem alookup_aset_ne {κ β : Type} [DecidableEq κ] {k k' : κ} (v : β) (l : List (κ × β))
    (h : k' ≠ k) : alookup k' (aset k v l) = alookup k' l := by
  have h' : ¬ k = k' := fun he => h he.symm
  induction l with
  | nil => simp [aset, alookup, h']
  | cons hd tl ih =>
    obtain ⟨a, b⟩ := hd
    by_cases ha : a = k
    · subst ha
      simp [aset, alookup, h']
    · by_cases ha' : a = k'
      · subst ha'
        simp [aset, alookup, ha]
      · simp [aset, alookup, ha, ha', ih]

theorem alookup_aerase_self {κ β : Type} [DecidableEq κ] (k : κ) (l : List (κ × β)) :
    alookup k (aerase k l) = none := by
  induction l with
  | nil => simp [aerase, alookup]
  | cons hd tl ih =>
    obtain ⟨a, b⟩ := hd
    by_cases h : a = k
    · simpa [aerase, alookup, h] using ih
    · simpa [aerase, alookup, h] using ih

/-- A binding whose entry satisfies the filter keeps its `alookup` result. -/
theorem alookup_filter {κ β : Type} [DecidableEq κ] {k : κ} {b : β} {P : κ × β → Bool}
    {l : List (κ × β)} (hl : alookup k l = some b) (hP : P (k, b) = true) :
    alookup k (l.filter P) = some b := by
  induction l with
  | nil => simp [alookup] at hl
  | cons hd tl ih =>
    obtain ⟨a, c⟩ := hd
    by_cases h : a = k
    · subst h
      rw [alookup] at hl
      simp only [if_pos rfl] at hl
      obtain rfl : c = b := by injection hl
      simp [List.filter, hP, alookup]
    · rw [alookup] at hl
      simp only [if_neg h] at hl
      by_cases hp : P (a, c) = true
      · simp [List.filter, hp, alookup, h, ih hl]
      · simp only [Bool.not_eq_true] at hp
        simp [List.filter, hp, ih hl]

/-- Membership with a key distinct from `k` survives `aset k v`. -/
theorem mem_aset_of_ne {κ β : Type} [DecidableEq κ] {k : κ} {v : β} {p : κ × β}
    {l : List (κ × β)} (hp : p ∈ l) (hne : p.1 ≠ k) : p ∈ aset k v l := by
  induction l with
  | nil => simp at hp
  | cons hd tl ih =>
    obtain ⟨a, b⟩ := hd
    by_cases h : a = k
    · rcases List.mem_cons.mp hp with rfl | hmem
      · exact absurd h hne
      · simp [aset, h, hmem]
    · rcases List.mem_cons.mp hp with rfl | hmem
      · simp [aset, h]
      · simp [aset, h, ih hmem]

/-- An element of `aset k v l` is the new binding or an old element. -/
theorem mem_aset_cases {κ β : Type} [DecidableEq κ] {k : κ} {v : β} {p : κ × β}
    {l : List (κ × β)} (hp : p ∈ aset k v l) : p = (k, v) ∨ p ∈ l := by
  induction l with
  | nil => simpa [aset] using hp
  | cons hd tl ih =>
    obtain ⟨a, b⟩ := hd
    by_cases h : a = k
    · rw [aset, if_pos h] at hp
      rcases List.mem_cons.mp hp with rfl | hmem
      · exact Or.inl rfl
      · exact Or.inr (List.mem_cons_of_mem _ hmem)
    · rw [aset, if_neg h] at hp
      rcases List.mem_cons.mp hp with rfl | hmem
      · exact Or.inr (List.mem_cons_self _ _)
      · rcases ih hmem with hc | hc
        · exact Or.inl hc
        · exact Or.inr (List.mem_cons_of_mem _ hc)

/-- The length of `aset` on a fresh key grows by exactly one. -/
theorem length_aset_fresh {κ β : Type} [DecidableEq κ] {k : κ} (v : β) {l : List (κ × β)}
    (h : alookup k l = none) : (aset k v l).length = l.length + 1 := by
  induction l with
  | nil => simp [aset]
  | cons hd tl ih =>
    obtain ⟨a, b⟩ := hd
    by_cases ha : a = k
    · rw [alookup] at h
      simp [ha] at h
    · rw [alookup] at h
      simp only [if_neg ha] at h
      simp [aset, ha, ih h]

/-! ## Event deduplicator (`EventDeduplicator`, LineWebHookRESTController.py) -/

/-- An inbound LINE webhook event; `none` models a missing JSON field.
`messageText` and `messageType` are carried by message events but are not
part of the fingerprint. -/
structure LineEvent where
  type : Option String
  replyToken : Option String
  sourceUserId : Option String
  messageId : Option String
  timestamp : Option String
  messageType : Option String
  messageText : Option String
deriving DecidableEq

/-- `_generate_event_key`: the five identifying fields, each coerced to a
string (missing field → empty string), joined with `"|"`.  The `md5`
hexdigest applied on top is modelled as the identity (see the header). -/
def generateEventKey (e : LineEvent) : String :=
  String.intercalate "|"
    [e.type.getD "", e.replyToken.getD "", e.sourceUserId.getD "",
     e.messageId.getD "", e.timestamp.getD ""]

/-- `processed_events`: fingerprint → `seenAt`, in insertion order. -/
abbrev DedupTable := List (String × Nat)

/-- Default `max_size` of `EventDeduplicator.__init__`. -/
def dedupMaxSize : Nat := 1000

/-- Default `expire_time` of `EventDeduplicator.__init__` (5 minutes). -/
def dedupExpireTime : Nat := 300

/-- `sorted(self.processed_events.items(), key=lambda x: x[1])`. -/
def sortBySeenAt (m : DedupTable) : DedupTable :=
  List.insertionSort (fun a b => a.2 ≤ b.2) m

/-- `del self.processed_events[key]`. -/
def removeKey (m : DedupTable) (k : String) : DedupTable :=
  m.filter (fun p => !decide (p.1 = k))

/-- Keys of `sorted_events[:self.max_size // 2]`: the oldest half by `seenAt`
(Python's `sorted` is stable; so is `insertionSort`). -/
def oldestHalfKeys (maxSize : Nat) (m : DedupTable) : List String :=
  ((sortBySeenAt m).take (maxSize / 2)).map Prod.fst

/-- `_cleanup_expired_events`: when the table exceeds `maxSize`, delete the
keys of the first `maxSize / 2` entries of the table sorted by `seenAt`;
then delete every entry older than `expireTime`. -/
def cleanupExpiredEvents (maxSize expireTime : Nat) (m : DedupTable) (now : Nat) : DedupTable :=
  let m1 :=
    if m.length > maxSize then
      (oldestHalfKeys maxSize m).foldl removeKey m
    else m
  m1.filter (fun p => !decide (now - p.2 > expireTime))

/-- `is_duplicate`: fingerprint, purge, membership check, insert-if-absent.
Returns the result together with the updated table. -/
def isDuplicate (maxSize expireTime : Nat) (m : DedupTable) (e : LineEvent) (now : Nat) :
    Bool × DedupTable :=
  let key := generateEventKey e
  let m1 := cleanupExpiredEvents maxSize expireTime m now
  if (alookup key m1).isSome then (true, m1)
  else (false, m1 ++ [(key, now)])

/-- **C1.** For every event `e`: the first `is_duplicate(e)` (on a fresh
deduplicator) returns `false` and records the fingerprint at `t1`; a second
call within the 300 s expire window returns `true` and leaves `seenAt = t1`
unrefreshed; a call more than 300 s after the first sighting returns
`false` again (re-recording the fingerprint at the new time). -/
theorem dedup_first_then_duplicate_then_expire (e : LineEvent) (t1 t2 t3 : Nat)
    (h2 : t2 - t1 ≤ dedupExpireTime) (h3 : t3 - t1 > dedupExpireTime) :
    isDuplicate dedupMaxSize dedupExpireTime [] e t1 = (false, [(generateEventKey e, t1)]) ∧
    isDuplicate dedupMaxSize dedupExpireTime [(generateEventKey e, t1)] e t2 =
      (true, [(generateEventKey e, t1)]) ∧
    isDuplicate dedupMaxSize dedupExpireTime [(generateEventKey e, t1)] e t3 =
      (false, [(generateEventKey e, t3)]) := by
  have h2' : ¬ (t2 - t1 > dedupExpireTime) := by omega
  have h3d : decide (t3 - t1 > dedupExpireTime) = true := decide_eq_true h3
  refine ⟨?_, ?_, ?_⟩
  · simp [isDuplicate, cleanupExpiredEvents, alookup, dedupMaxSize]
  · simp [isDuplicate, cleanupExpiredEvents, alookup, dedupMaxSize,
      decide_eq_false h2']
  · simp [isDuplicate, cleanupExpiredEvents, alookup, dedupMaxSize, h3d]

/-- Witness for C1 at a concrete event and concrete times 10, 100, 400. -/
theorem dedup_first_then_duplicate_then_expire_witness :
    isDuplicate dedupMaxSize dedupExpireTime []
      ⟨some "message", some "T1", some "U1", some "M1", some "1000", some "text", some "hi"⟩ 10 =
      (false, [("message|T1|U1|M1|1000", 10)]) ∧
    isDuplicate dedupMaxSize dedupExpireTime [("message|T1|U1|M1|1000", 10)]
      ⟨some "message", some "T1", some "U1", some "M1", some "1000", some "text", some "hi"⟩ 100 =
      (true, [("message|T1|U1|M1|1000", 10)]) ∧
    isDuplicate dedupMaxSize dedupExpireTime [("message|T1|U1|M1|1000", 10)]
      ⟨some "message", some "T1", some "U1", some "M1", some "1000", some "text", some "hi"⟩ 400 =
      (false, [("message|T1|U1|M1|1000", 400)]) :=
  dedup_first_then_duplicate_then_expire
    ⟨some "message", some "T1", some "U1", some "M1", some "1000", some "text", some "hi"⟩
    10 100 400 (by decide) (by decide)

/-- **C9.** Two events that agree on the five fingerprint fields get the
same fingerprint regardless of every other field; hence once one of them
has been admitted (from a fresh table) the other is reported a duplicate
within the expiry window, although it is a different event. -/
theorem dedup_fingerprint_ignores_nonkey_fields (e1 e2 : LineEvent) (t1 t2 : Nat)
    (hty : e1.type = e2.type) (hrt : e1.replyToken = e2.replyToken)
    (hsu : e1.sourceUserId = e2.sourceUserId) (hmi : e1.messageId = e2.messageId)
    (hts : e1.timestamp = e2.timestamp) (h2 : t2 - t1 ≤ dedupExpireTime) :
    generateEventKey e1 = generateEventKey e2 ∧
    isDuplicate dedupMaxSize dedupExpireTime [] e1 t1 = (false, [(generateEventKey e1, t1)]) ∧
    (isDuplicate dedupMaxSize dedupExpireTime [(generateEventKey e1, t1)] e2 t2).1 = true := by
  have hkey : generateEventKey e1 = generateEventKey e2 := by
    simp [generateEventKey, hty, hrt, hsu, hmi, hts]
  have h2' : ¬ (t2 - t1 > dedupExpireTime) := by omega
  refine ⟨hkey, ?_, ?_⟩
  · simp [isDuplicate, cleanupExpiredEvents, alookup, dedupMaxSize]
  · rw [hkey]
    simp [isDuplicate, cleanupExpiredEvents, alookup, dedupMaxSize, decide_eq_false h2']

/-- Witness for C9: the two events differ in `messageText` and
`messageType`, yet the second is treated as a duplicate of the first. -/
theorem dedup_fingerprint_ignores_nonkey_fields_witness :
    generateEventKey
        ⟨some "message", some "T1", some "U1", some "M1", some "1000", some "text", some "拍照"⟩ =
      generateEventKey
        ⟨some "message", some "T1", some "U1", some "M1", some "1000", some "image", some "你好"⟩ ∧
    isDuplicate dedupMaxSize dedupExpireTime []
        ⟨some "message", some "T1", some "U1", some "M1", some "1000", some "text", some "拍照"⟩ 7 =
      (false,
        [(generateEventKey
            ⟨some "message", some "T1", some "U1", some "M1", some "1000", some "text", some "拍照"⟩,
          7)]) ∧
    (isDuplicate dedupMaxSize dedupExpireTime
        [(generateEventKey
            ⟨some "message", some "T1", some "U1", some "M1", some "1000", some "text", some "拍照"⟩,
          7)]
        ⟨some "message", some "T1", some "U1", some "M1", some "1000", some "image", some "你好"⟩
        12).1 = true :=
  dedup_fingerprint_ignores_nonkey_fields
    ⟨some "message", some "T1", some "U1", some "M1", some "1000", some "text", some "拍照"⟩
    ⟨some "message", some "T1", some "U1", some "M1", some "1000", some "image", some "你好"⟩
    7 12 rfl rfl rfl rfl rfl (by decide)

/-! ### The overflow purge of `_cleanup_expired_events` (claim C5) -/

instance : IsTotal (String × Nat) (fun a b => a.2 ≤ b.2) :=
  ⟨fun a b => Nat.le_total a.2 b.2⟩

instance : IsTrans (String × Nat) (fun a b => a.2 ≤ b.2) :=
  ⟨fun _ _ _ h1 h2 => le_trans h1 h2⟩

/-- The deletion loop over a list of keys removes exactly the entries whose
key occurs in that list. -/
theorem foldl_removeKey (ks : List String) (m : DedupTable) :
    ks.foldl removeKey m = m.filter (fun p => !decide (p.1 ∈ ks)) := by
  induction ks generalizing m with
  | nil => simp
  | cons k ks ih =>
    rw [List.foldl_cons, ih, removeKey, List.filter_filter]
    congr 1
    funext p
    by_cases h : p.1 = k
    · simp [h]
    · by_cases h' : p.1 ∈ ks <;> simp [h, h', List.mem_cons]

theorem length_filter_not (p : α → Bool) (l : List α) :
    (l.filter fun a => !p a).length = l.length - l.countP p := by
  induction l with
  | nil => simp
  | cons a l ih =>
    have hle := List.countP_le_length p (l := l)
    by_cases h : p a <;> (simp [h, List.countP_cons, ih]; try omega)

/-- What claim C5 asserts about a run of `is_duplicate` on an oversized
table: the overflow phase deletes exactly the `maxSize / 2` oldest entries
(ordered by `seenAt`), the TTL phase then drops exactly the expired
survivors, and only the purged table is used for the membership check and
the insert. -/
def dedupPurgeSpec (maxSize expireTime : Nat) (m : DedupTable) (e : LineEvent) (now : Nat) :
    Prop :=
  (oldestHalfKeys maxSize m).foldl removeKey m
      = m.filter (fun p => !decide (p.1 ∈ oldestHalfKeys maxSize m)) ∧
  (m.filter (fun p => !decide (p.1 ∈ oldestHalfKeys maxSize m))).length
      = m.length - maxSize / 2 ∧
  (∀ p ∈ (sortBySeenAt m).take (maxSize / 2),
    ∀ q ∈ (sortBySeenAt m).drop (maxSize / 2), p.2 ≤ q.2) ∧
  cleanupExpiredEvents maxSize expireTime m now
      = (m.filter (fun p => !decide (p.1 ∈ oldestHalfKeys maxSize m))).filter
          (fun p => !decide (now - p.2 > expireTime)) ∧
  isDuplicate maxSize expireTime m e now
      = (if (alookup (generateEventKey e)
              (cleanupExpiredEvents maxSize expireTime m now)).isSome
         then (true, cleanupExpiredEvents maxSize expireTime m now)
         else (false,
           cleanupExpiredEvents maxSize expireTime m now ++ [(generateEventKey e, now)]))

/-- **C5.** When `is_duplicate` runs with more than `maxSize` records (and
distinct fingerprints, the dict invariant), the purge behaves exactly as
claimed: see `dedupPurgeSpec`. -/
theorem dedup_overflow_purge (maxSize expireTime : Nat) (m : DedupTable) (e : LineEvent)
    (now : Nat) (hnodup : (m.map Prod.fst).Nodup) (hover : m.length > maxSize) :
    dedupPurgeSpec maxSize expireTime m e now := by
  have hperm : List.Perm (sortBySeenAt m) m := List.perm_insertionSort _ m
  have hkeys : ((sortBySeenAt m).map Prod.fst).Nodup :=
    ((hperm.map Prod.fst).symm).nodup hnodup
  have hcount : m.countP (fun p => decide (p.1 ∈ oldestHalfKeys maxSize m)) = maxSize / 2 := by
    have hsplit := List.take_append_drop (maxSize / 2) (sortBySeenAt m)
    have hperm' : m.countP (fun p => decide (p.1 ∈ oldestHalfKeys maxSize m))
        = (sortBySeenAt m).countP (fun p => decide (p.1 ∈ oldestHalfKeys maxSize m)) :=
      (List.Perm.countP_eq _ hperm).symm
    rw [hperm', ← hsplit, List.countP_append]
    have htake : ((sortBySeenAt m).take (maxSize / 2)).countP
        (fun p => decide (p.1 ∈ oldestHalfKeys maxSize m))
        = ((sortBySeenAt m).take (maxSize / 2)).length := by
      rw [List.countP_eq_length]
      intro p hp
      exact decide_eq_true (List.mem_map_of_mem Prod.fst hp)
    have hdisj : (((sortBySeenAt m).take (maxSize / 2)).map Prod.fst).Disjoint
        (((sortBySeenAt m).drop (maxSize / 2)).map Prod.fst) := by
      have : ((((sortBySeenAt m).take (maxSize / 2)) ++
          ((sortBySeenAt m).drop (maxSize / 2))).map Prod.fst).Nodup := by
        rw [hsplit]; exact hkeys
      rw [List.map_append, List.nodup_append] at this
      exact this.2.2
    have hdrop : ((sortBySeenAt m).drop (maxSize / 2)).countP
        (fun p => decide (p.1 ∈ oldestHalfKeys maxSize m)) = 0 := by
      rw [List.countP_eq_zero]
      intro q hq hmem
      have hqmem : q.1 ∈ oldestHalfKeys maxSize m := of_decide_eq_true hmem
      exact hdisj hqmem (List.mem_map_of_mem Prod.fst hq)
    rw [htake, hdrop, List.length_take, hperm.length_eq]
    have h1 : maxSize / 2 ≤ m.length := le_trans (Nat.div_le_self _ _) (le_of_lt hover)
    omega
  refine ⟨foldl_removeKey _ m, ?_, ?_, ?_, rfl⟩
  · rw [length_filter_not, hcount]
  · intro p hp q hq
    exact List.Sorted.rel_of_mem_take_of_mem_drop
      (List.sorted_insertionSort (fun a b => a.2 ≤ b.2) m) hp hq
  · rw [cleanupExpiredEvents, if_pos hover, foldl_removeKey]

/-- Witness for C5: a three-entry table with `max_size = 2`; the single
oldest entry (`seenAt = 1`) is evicted, then the TTL pass runs, then the
membership check. -/
theorem dedup_overflow_purge_witness :
    dedupPurgeSpec 2 300 [("a", 5), ("b", 1), ("c", 3)]
      ⟨some "message", some "T9", some "U9", some "M9", some "99", none, none⟩ 10 :=
  dedup_overflow_purge 2 300 [("a", 5), ("b", 1), ("c", 3)]
    ⟨some "message", some "T9", some "U9", some "M9", some "99", none, none⟩ 10
    (by decide) (by decide)

/-! ## Expiring cache (`SimpleCache`, Service/SimpleCache.py)

Keys have type `κ`, stored Python values have type `Option σ`
(`Option.none` models the Python value `None`); `get` returns `Option σ`,
where `none` stands for Python's `None` — deliberately the same value for
"miss" and "stored `None`" (claim C10). -/

/-- The mutable state of one `SimpleCache` instance. -/
structure CacheState (κ σ : Type) where
  cache : List (κ × (Option σ × Nat))
  accessCount : List (κ × Nat)
  lastAccess : List (κ × Nat)
  popularKeys : List κ
  defaultTtl : Nat

/-- A freshly constructed `SimpleCache(default_ttl=ttl)`. -/
def emptyCache (κ σ : Type) (ttl : Nat) : CacheState κ σ :=
  ⟨[], [], [], [], ttl⟩

/-- `self.access_count[key] += 1` on a `defaultdict(int)`. -/
def abump {κ : Type} [DecidableEq κ] (k : κ) (l : List (κ × Nat)) : List (κ × Nat) :=
  aset k ((alookup k l).getD 0 + 1) l

/-- `_track_access`: bump the access count, stamp `last_access`, and mark
the key popular once its count exceeds 5. -/
def trackAccess {κ σ : Type} [DecidableEq κ] (st : CacheState κ σ) (k : κ) (now : Nat) :
    CacheState κ σ :=
  let ac := abump k st.accessCount
  let st1 := { st with accessCount := ac, lastAccess := aset k now st.lastAccess }
  if (alookup k ac).getD 0 > 5 then
    { st1 with popularKeys := if k ∈ st1.popularKeys then st1.popularKeys
                              else st1.popularKeys ++ [k] }
  else st1

/-- `_cleanup_expired`: drop every entry whose TTL has lapsed. -/
def cleanupExpired {κ σ : Type} (c : List (κ × (Option σ × Nat))) (now ttl : Nat) :
    List (κ × (Option σ × Nat)) :=
  c.filter (fun p => !decide (now - p.2.2 > ttl))

/-- `SimpleCache.get`: track the access, then return the stored value if it
is not TTL-expired; an expired entry is deleted and `None` returned (the
near-expiry popular-key refresh hint is a log-only no-op). -/
def CacheState.get {κ σ : Type} [DecidableEq κ] (st : CacheState κ σ) (k : κ) (now : Nat) :
    Option σ × CacheState κ σ :=
  match alookup k st.cache with
  | some (data, ts) =>
    let st1 := trackAccess st k now
    if !decide (now - ts > st.defaultTtl) then (data, st1)
    else (none, { st1 with cache := aerase k st1.cache })
  | none => (none, st)

/-- `SimpleCache.set`: store/overwrite at the current time; when the table
then holds more than 100 entries, run `_cleanup_expired` opportunistically. -/
def CacheState.set {κ σ : Type} [DecidableEq κ] (st : CacheState κ σ) (k : κ) (v : Option σ)
    (now : Nat) : CacheState κ σ :=
  let c := aset k (v, now) st.cache
  if c.length > 100 then { st with cache := cleanupExpired c now st.defaultTtl }
  else { st with cache := c }

/-- The dict returned by `get_stats` (`hit_rate` is a Python float,
modelled as a rational). -/
structure CacheStats where
  cacheSize : Nat
  totalAccess : Nat
  popularKeysCount : Nat
  hitRate : ℚ
deriving DecidableEq

/-- `get_stats`: `hit_rate = (total_access - cache_size) / max(total_access, 1) * 100`. -/
def CacheState.getStats {κ σ : Type} (st : CacheState κ σ) : CacheStats :=
  let total := (st.accessCount.map Prod.snd).sum
  ⟨st.cache.length, total, st.popularKeys.length,
    ((total : ℚ) - (st.cache.length : ℚ)) / ((max total 1 : Nat) : ℚ) * 100⟩

/-- **C4.** `set(k, v)` then `get(k)` immediately returns `v`; a `get(k)`
issued once more than the TTL has elapsed since the `set` returns absent
(`None`) and deletes the expired entry from the table as a side effect. -/
theorem cache_set_get_ttl {κ σ : Type} [DecidableEq κ] (st : CacheState κ σ) (k : κ)
    (v : Option σ) (t t2 : Nat) (hexp : t2 - t > st.defaultTtl) :
    (CacheState.get (CacheState.set st k v t) k t).1 = v ∧
    (CacheState.get (CacheState.set st k v t) k t2).1 = none ∧
    alookup k ((CacheState.get (CacheState.set st k v t) k t2).2).cache = none := by
  have hset : alookup k (CacheState.set st k v t).cache = some (v, t) := by
    rw [CacheState.set]
    by_cases h : (aset k (v, t) st.cache).length > 100
    · rw [if_pos h]
      exact alookup_filter (alookup_aset_self k (v, t) st.cache) (by simp)
    · rw [if_neg h]
      exact alookup_aset_self k (v, t) st.cache
  have httl : (CacheState.set st k v t).defaultTtl = st.defaultTtl := by
    rw [CacheState.set]
    by_cases h : (aset k (v, t) st.cache).length > 100 <;> simp [h]
  refine ⟨?_, ?_, ?_⟩
  · rw [CacheState.get, hset, httl]
    simp
  · rw [CacheState.get, hset, httl]
    simp [hexp]
  · rw [CacheState.get, hset, httl]
    simp only [decide_eq_true hexp, Bool.not_true, Bool.false_eq_true, if_false]
    exact alookup_aerase_self k _

/-- Witness for C4 at a concrete cache (`ttl = 300`), key and value. -/
theorem cache_set_get_ttl_witness :
    (CacheState.get (CacheState.set (emptyCache String String 300) "k" (some "v") 50) "k" 50).1
      = some "v" ∧
    (CacheState.get (CacheState.set (emptyCache String String 300) "k" (some "v") 50) "k" 400).1
      = none ∧
    alookup "k"
      ((CacheState.get (CacheState.set (emptyCache String String 300) "k" (some "v") 50)
          "k" 400).2).cache = none :=
  cache_set_get_ttl (emptyCache String String 300) "k" (some "v") 50 400 (by decide)

/-- **C7.** `set` stores/overwrites its own key; any other entry it removes
(via the opportunistic `_cleanup_expired` once the table exceeds 100
entries) is TTL-expired at the time of removal; a non-expired entry is
never evicted by `set`; and on a fresh key with an all-live table the table
grows by one — even beyond the cap. -/
theorem cache_set_only_evicts_expired {κ σ : Type} [DecidableEq κ] (st : CacheState κ σ)
    (k : κ) (v : Option σ) (t : Nat) :
    alookup k (CacheState.set st k v t).cache = some (v, t) ∧
    (∀ k' w ts, k' ≠ k → alookup k' st.cache = some (w, ts) →
      ¬ (t - ts > st.defaultTtl) → alookup k' (CacheState.set st k v t).cache = some (w, ts)) ∧
    (∀ p ∈ st.cache, p.1 ≠ k → p ∉ (CacheState.set st k v t).cache →
      t - p.2.2 > st.defaultTtl) ∧
    (alookup k st.cache = none → (∀ p ∈ st.cache, ¬ (t - p.2.2 > st.defaultTtl)) →
      (CacheState.set st k v t).cache.length = st.cache.length + 1) := by
  refine ⟨?_, ?_, ?_, ?_⟩
  · rw [CacheState.set]
    by_cases h : (aset k (v, t) st.cache).length > 100
    · rw [if_pos h]
      exact alookup_filter (alookup_aset_self k (v, t) st.cache) (by simp)
    · rw [if_neg h]
      exact alookup_aset_self k (v, t) st.cache
  · intro k' w ts hne hl hlive
    rw [CacheState.set]
    by_cases h : (aset k (v, t) st.cache).length > 100
    · rw [if_pos h]
      refine alookup_filter ?_ ?_
      · rw [alookup_aset_ne _ _ hne]; exact hl
      · simpa using hlive
    · rw [if_neg h]
      rw [alookup_aset_ne _ _ hne]; exact hl
  · intro p hp hne hnot
    rw [CacheState.set] at hnot
    have hmem : p ∈ aset k (v, t) st.cache := mem_aset_of_ne hp hne
    by_cases h : (aset k (v, t) st.cache).length > 100
    · rw [if_pos h] at hnot
      simp only [cleanupExpired, List.mem_filter] at hnot
      by_contra hlive
      exact hnot ⟨hmem, by simpa using hlive⟩
    · rw [if_neg h] at hnot
      exact absurd hmem hnot
  · intro hfresh hlive
    rw [CacheState.set]
    have hlen : (aset k (v, t) st.cache).length = st.cache.length + 1 :=
      length_aset_fresh _ hfresh
    by_cases h : (aset k (v, t) st.cache).length > 100
    · rw [if_pos h]
      have hall : cleanupExpired (aset k (v, t) st.cache) t st.defaultTtl
          = aset k (v, t) st.cache := by
        rw [cleanupExpired, List.filter_eq_self]
        intro p hp
        rcases mem_aset_cases hp with hcase | hcase
        · simp [hcase]
        · simpa using hlive p hcase
      rw [hall, hlen]
    · rw [if_neg h, hlen]

/-- A small concrete cache state (`ttl = 300`) holding one live entry,
used by the C7 witness. -/
def cWitnessState : CacheState String String :=
  ⟨[("a", (some "w", 5))], [], [], [], 300⟩

/-- Witness for C7 on a one-entry table (`ttl = 300`), one live neighbour
entry, fresh key. -/
theorem cache_set_only_evicts_expired_witness :
    alookup "k" (CacheState.set cWitnessState "k" (some "v") 10).cache = some (some "v", 10) ∧
    alookup "a" (CacheState.set cWitnessState "k" (some "v") 10).cache = some (some "w", 5) ∧
    (CacheState.set cWitnessState "k" (some "v") 10).cache.length
      = cWitnessState.cache.length + 1 :=
  ⟨(cache_set_only_evicts_expired cWitnessState "k" (some "v") 10).1,
   (cache_set_only_evicts_expired cWitnessState "k" (some "v") 10).2.1 "a" (some "w") 5
     (by decide) (by decide) (by decide),
   (cache_set_only_evicts_expired cWitnessState "k" (some "v") 10).2.2.2 (by decide)
     (by decide)⟩

/-- A concrete cache state reached by `set("k", "v")` at time 0 followed by
two `get("k")` calls (times 1 and 2): table size 1, total accesses 2. -/
def c8State : CacheState String String :=
  ((((emptyCache String String 300).set "k" (some "v") 0).get "k" 1).2.get "k" 2).2

/-- **C8, counterexample.** In the state `c8State` (2 accesses, 1 entry)
`get_stats` reports `hit_rate = 50`, whereas the claimed formula
`(totalAccesses − size) / totalAccesses` evaluates to `1/2`: the code
reports the ratio as a percentage (and guards division by
`max(totalAccesses, 1)`), so the claimed equality fails. -/
theorem cache_hit_rate_formula_counterexample :
    (CacheState.getStats c8State).totalAccess = 2 ∧
    (CacheState.getStats c8State).cacheSize = 1 ∧
    (CacheState.getStats c8State).hitRate = 50 ∧
    (((CacheState.getStats c8State).totalAccess : ℚ)
        - ((CacheState.getStats c8State).cacheSize : ℚ))
      / ((CacheState.getStats c8State).totalAccess : ℚ) = 1 / 2 ∧
    (50 : ℚ) ≠ 1 / 2 := by
  have hst : c8State = ⟨[("k", (some "v", 0))], [("k", 2)], [("k", 2)], [], 300⟩ := rfl
  refine ⟨rfl, rfl, ?_, ?_, by norm_num⟩
  · rw [hst]
    show ((2 : ℚ) - (1 : ℚ)) / (((2 : Nat) : ℚ)) * 100 = 50
    norm_num
  · rw [hst]
    show (((2 : Nat) : ℚ) - ((1 : Nat) : ℚ)) / ((2 : Nat) : ℚ) = 1 / 2
    norm_num

/-- **C8, amended.** In every cache state with at least one recorded
access, `get_stats` reports `hitRate` equal to
`(totalAccesses − size) / totalAccesses × 100` — the claimed ratio
rendered as a percentage — where `totalAccesses` is the sum of the per-key
access counts and `size` the current number of table entries (with zero
recorded accesses the guard `max(totalAccesses, 1)` makes it `−100·size`). -/
theorem cache_hit_rate_percentage {κ σ : Type} (st : CacheState κ σ)
    (hpos : 0 < (st.accessCount.map Prod.snd).sum) :
    (CacheState.getStats st).hitRate =
      (((st.accessCount.map Prod.snd).sum : ℚ) - (st.cache.length : ℚ))
        / ((st.accessCount.map Prod.snd).sum : ℚ) * 100 ∧
    (CacheState.getStats st).totalAccess = (st.accessCount.map Prod.snd).sum ∧
    (CacheState.getStats st).cacheSize = st.cache.length := by
  have hmax : max (st.accessCount.map Prod.snd).sum 1 = (st.accessCount.map Prod.snd).sum :=
    Nat.max_eq_left hpos
  refine ⟨?_, rfl, rfl⟩
  show (((st.accessCount.map Prod.snd).sum : ℚ) - (st.cache.length : ℚ))
      / ((max (st.accessCount.map Prod.snd).sum 1 : Nat) : ℚ) * 100 = _
  rw [hmax]

/-- Witness for the amended C8 at the concrete state `c8State`. -/
theorem cache_hit_rate_percentage_witness :
    (CacheState.getStats c8State).hitRate =
      (((c8State.accessCount.map Prod.snd).sum : ℚ) - (c8State.cache.length : ℚ))
        / ((c8State.accessCount.map Prod.snd).sum : ℚ) * 100 :=
  (cache_hit_rate_percentage c8State (by decide)).1

/-! ## Connection pool (`ConnectionPool`, Service/ConnectionFactory.py)

Connections are identified by `Nat` ids.  The outcomes of the two
environment-dependent tests — the liveness probe `_is_connection_valid`
and whether `pyodbc.connect` succeeds inside `_create_new_connection`
(which catches `pyodbc.Error` and returns `None`) — are passed in as
parameters.  `heldByCallers` is specification-only bookkeeping counting
connections handed to callers and not yet returned; the Python object has
no such field and no code path reads it. -/

/-- `max_connections` of `ConnectionPool.__init__`. -/
def maxConnections : Nat := 5

/-- `min_connections` of `ConnectionPool.__init__`. -/
def minConnections : Nat := 2

/-- Pool state: the idle FIFO `Queue`, the `active_connections` counter
(a Python `int`, so modelled as `Int`), a fresh-id source standing for
`pyodbc.connect`, and the ghost count of checked-out connections. -/
structure PoolState where
  pool : List Nat
  activeConnections : Int
  nextId : Nat
  heldByCallers : Nat
deriving DecidableEq

/-- `_create_new_connection`: a fresh connection, or `None` when creation
fails (`pyodbc.Error` is caught). -/
def createNewConnection (ok : Bool) (s : PoolState) : Option Nat × PoolState :=
  if ok then (some s.nextId, { s with nextId := s.nextId + 1 }) else (none, s)

/-- `_initialize_pool`: `min_connections` creation attempts; each success
is put into the queue and counted in `active_connections`. -/
def initializePool (oks : List Bool) : PoolState :=
  oks.foldl
    (fun s ok =>
      match createNewConnection ok s with
      | (some c, s1) =>
        { s1 with pool := s1.pool ++ [c], activeConnections := s1.activeConnections + 1 }
      | (none, s1) => s1)
    ⟨[], 0, 0, 0⟩

/-- `get_connection`: dequeue and liveness-check an idle connection; on a
failed probe decrement `active_connections` and hand out a replacement from
`_create_new_connection`; on an empty queue (`Empty` after the timeout)
create a new connection only while `active_connections < max_connections`,
else return the sentinel `None`. -/
def getConnection (validity : Nat → Bool) (createOk : Bool) (s : PoolState) :
    Option Nat × PoolState :=
  match s.pool with
  | c :: rest =>
    if validity c then
      (some c, { s with pool := rest, heldByCallers := s.heldByCallers + 1 })
    else
      let s1 := { s with pool := rest, activeConnections := s.activeConnections - 1 }
      match createNewConnection createOk s1 with
      | (some c2, s2) => (some c2, { s2 with heldByCallers := s2.heldByCallers + 1 })
      | (none, s2) => (none, s2)
  | [] =>
    if s.activeConnections < (maxConnections : Int) then
      match createNewConnection createOk s with
      | (some c2, s2) =>
        (some c2, { s2 with activeConnections := s2.activeConnections + 1,
                            heldByCallers := s2.heldByCallers + 1 })
      | (none, s2) => (none, s2)
    else (none, s)

/-- `return_connection`: a connection that passes the probe goes back to
the queue (`put_nowait`; a full queue closes it and decrements the
counter); an invalid one is closed and decremented. -/
def returnConnection (validOnReturn : Bool) (s : PoolState) (c : Nat) : PoolState :=
  if validOnReturn then
    if s.pool.length < maxConnections then
      { s with pool := s.pool ++ [c], heldByCallers := s.heldByCallers - 1 }
    else
      { s with activeConnections := s.activeConnections - 1,
               heldByCallers := s.heldByCallers - 1 }
  else
    { s with activeConnections := s.activeConnections - 1,
             heldByCallers := s.heldByCallers - 1 }

/-- **C6.** `get_connection` never raises (every exception path of the
source is caught, so the embedding is a total function into an `Option`);
it returns the sentinel `None` when the queue wait times out with the pool
at capacity, and when connection creation fails on either creation path. -/
theorem pool_acquire_returns_sentinel (v : Nat → Bool) (ok : Bool) (s : PoolState) :
    (s.pool = [] → (maxConnections : Int) ≤ s.activeConnections →
      getConnection v ok s = (none, s)) ∧
    (s.pool = [] → ok = false → (getConnection v ok s).1 = none) ∧
    (∀ c rest, s.pool = c :: rest → v c = false → ok = false →
      (getConnection v ok s).1 = none) := by
  refine ⟨?_, ?_, ?_⟩
  · intro hp hfull
    rw [getConnection]
    rw [hp]
    simp [not_lt.mpr hfull]
  · intro hp hok
    rw [getConnection, hp, hok]
    by_cases h : s.activeConnections < (maxConnections : Int) <;>
      simp [h, createNewConnection]
  · intro c rest hp hv hok
    rw [getConnection, hp, hok]
    simp [hv, createNewConnection]

/-- Witness for C6: an at-capacity empty pool, an empty pool with failing
creation, and a dead dequeued connection with failing creation. -/
theorem pool_acquire_returns_sentinel_witness :
    getConnection (fun _ => true) true ⟨[], 5, 9, 5⟩ = (none, ⟨[], 5, 9, 5⟩) ∧
    (getConnection (fun _ => true) false ⟨[], 2, 9, 0⟩).1 = none ∧
    (getConnection (fun _ => false) false ⟨[7], 2, 9, 0⟩).1 = none :=
  ⟨(pool_acquire_returns_sentinel (fun _ => true) true ⟨[], 5, 9, 5⟩).1 rfl (by decide),
   (pool_acquire_returns_sentinel (fun _ => true) false ⟨[], 2, 9, 0⟩).2.1 rfl rfl,
   (pool_acquire_returns_sentinel (fun _ => false) false ⟨[7], 2, 9, 0⟩).2.2 7 [] rfl rfl rfl⟩

/-- The C2 scenario: a pool initialised with two connections; the first
`get_connection` dequeues connection `0`, whose liveness probe fails, so it
is discarded (decrementing `active_connections`) and replaced via
`_create_new_connection`; five further `get_connection` calls follow, all
creations succeed, and nothing is released. -/
def c2Trace : List (Option Nat) × PoolState :=
  let v : Nat → Bool := fun c => !decide (c = 0)
  let s0 := initializePool [true, true]
  let r1 := getConnection v true s0
  let r2 := getConnection v true r1.2
  let r3 := getConnection v true r2.2
  let r4 := getConnection v true r3.2
  let r5 := getConnection v true r4.2
  let r6 := getConnection v true r5.2
  ([r1.1, r2.1, r3.1, r4.1, r5.1, r6.1], r6.2)

/-- **C2 fails on the code.** In the `c2Trace` run all six `get_connection`
calls return a connection and afterwards callers hold 6 connections with
none idle — exceeding `max_connections = 5`.  The invalid-connection path
decrements `active_connections` but hands out the replacement connection
without re-incrementing, so the counter undercounts and the bound breaks. -/
theorem pool_bound_violated_on_invalid_replacement :
    c2Trace.1.all Option.isSome = true ∧
    c2Trace.1.length = 6 ∧
    c2Trace.2.heldByCallers + c2Trace.2.pool.length = 6 ∧
    maxConnections < 6 := by
  refine ⟨?_, ?_, ?_, ?_⟩ <;> decide

/-! ## Tiered response resolver (`UnifiedResponseService`)

Python strings are modelled as `List Char` (`len` counts code points).
`str.lower()` is modelled on the ASCII range (the only cased characters
appearing in the service's tables; CJK characters are case-less in Python
too).  Each entry of `pattern_matches` is a regular expression that is a
pure alternation of literals compiled with `re.IGNORECASE`, and is applied
with `.search` to the already-lowercased text: this is modelled as "some
(lowercase) alternative is a substring". -/

/-- A Python string. -/
abbrev PyStr := List Char

/-- The whitespace characters recognised by `str.strip()` / `str.split()`
(ASCII range). -/
def pyIsSpace (c : Char) : Bool :=
  c == ' ' || c == '\t' || c == '\n' || c == '\r' || c == '\x0b' || c == '\x0c'

/-- `str.lower()` (ASCII range, via `Char.toLower`). -/
def pyLower (l : PyStr) : PyStr := l.map Char.toLower

/-- `str.strip()`. -/
def pyStrip (l : PyStr) : PyStr :=
  ((l.dropWhile pyIsSpace).reverse.dropWhile pyIsSpace).reverse

/-- Python's `needle in hay` substring test. -/
def strContains (needle : PyStr) : PyStr → Bool
  | [] => needle.isEmpty
  | c :: t => needle.isPrefixOf (c :: t) || strContains needle t

/-- `str.split()`: split on whitespace runs, no empty words. -/
def pySplit (l : PyStr) : List PyStr :=
  (l.splitOnP pyIsSpace).filter (fun w => !w.isEmpty)

/-- `self.exact_matches` (dict order). -/
def exactMatches : List (PyStr × PyStr) :=
  [("你好".toList, "您好！我是營養助手，可以幫您分析食物和管理卡路里。".toList),
   ("謝謝".toList, "不客氣！有什麼需要幫助的嗎？".toList),
   ("再見".toList, "再見！祝您有美好的一天！".toList),
   ("hi".toList, "Hello! I'm your nutrition assistant.".toList),
   ("hello".toList, "Hello! How can I help you today?".toList),
   ("thank you".toList, "You're welcome!".toList),
   ("thanks".toList, "You're welcome!".toList),
   ("bye".toList, "Goodbye! Have a great day!".toList)]

/-- `self.pattern_matches` / `self.compiled_patterns` (dict order); each
regex is given by its list of literal alternatives. -/
def patternMatches : List (List PyStr × PyStr) :=
  [(["你好".toList, "哈囉".toList, "嗨".toList, "hi".toList, "hello".toList],
    "您好！我是您的營養助手，有什麼可以幫助您的嗎？".toList),
   (["謝謝".toList, "感謝".toList, "thank".toList],
    "不客氣！很高興能幫助您 😊".toList),
   (["再見".toList, "bye".toList, "掰掰".toList],
    "再見！記得保持健康的飲食習慣哦 👋".toList),
   (["幫助".toList, "help".toList, "怎麼用".toList],
    "我可以幫您：\n📊 分析食物營養\n📈 追蹤卡路里\n📋 查詢飲食紀錄\n💪 計算BMI".toList)]

/-- `self.faq_responses` (dict order). -/
def faqResponses : List (PyStr × PyStr) :=
  [("如何計算BMI".toList,
    "BMI = 體重(kg) / 身高(m)²\n正常範圍：18.5-24.9\n請告訴我您的身高體重，我來幫您計算！".toList),
   ("怎麼記錄食物".toList,
    "您可以:\n1️⃣ 拍照上傳食物圖片\n2️⃣ 直接輸入食物名稱\n3️⃣ 描述您吃了什麼\n我會自動分析營養成分！".toList),
   ("卡路里查詢".toList,
    "請告訴我您想查詢的時間範圍:\n• 今天\n• 昨天\n• 這週\n• 本月\n或指定日期範圍".toList)]

/-- `self.intent_keywords` (dict order). -/
def intentCategories : List (String × List PyStr) :=
  [("greeting", ["你好".toList, "哈囉".toList, "嗨".toList, "hi".toList, "hello".toList]),
   ("thanks", ["謝謝".toList, "感謝".toList, "thank".toList]),
   ("goodbye", ["再見".toList, "bye".toList, "掰掰".toList]),
   ("help", ["幫助".toList, "help".toList, "怎麼用".toList]),
   ("bmi", ["BMI".toList, "bmi".toList, "身體質量".toList, "體重指數".toList]),
   ("calories", ["卡路里".toList, "熱量".toList, "cal".toList, "kcal".toList]),
   ("food_record", ["記錄".toList, "紀錄".toList, "輸入".toList, "新增".toList]),
   ("search", ["查詢".toList, "搜尋".toList, "找".toList, "看".toList])]

/-- `quick_intent_classify`: the first intent category one of whose
keywords occurs in the lowercased text. -/
def quickIntentClassify (text : PyStr) : Option String :=
  (intentCategories.find? (fun ik => ik.2.any (fun kw => strContains kw (pyLower text)))).map
    Prod.fst

/-- The intents eligible for a quick response. -/
def quickIntents : List String := ["greeting", "thanks", "goodbye", "help"]

/-- `should_use_quick_response`: stripped length at most 10, or a
greeting/thanks/goodbye/help intent keyword. -/
def shouldUseQuickResponse (text : PyStr) : Bool :=
  decide ((pyStrip text).length ≤ 10) ||
    (match quickIntentClassify text with
     | some i => quickIntents.contains i
     | none => false)

/-- `_similarity_check`: Jaccard similarity of the word sets above 0.6. -/
def similarityCheck (t1 t2 : PyStr) : Bool :=
  let w1 := (pySplit t1).dedup
  let w2 := (pySplit t2).dedup
  if w1.isEmpty || w2.isEmpty then false
  else
    let inter := (w1.filter (fun w => decide (w ∈ w2))).length
    let union := (w1 ++ w2.filter (fun w => !decide (w ∈ w1))).length
    decide (((inter : ℚ) / (union : ℚ)) > 3 / 5)

/-- The cache key `f"response:{user_id}:{message_text}"`. -/
def respCacheKey (userId text : PyStr) : PyStr :=
  "response:".toList ++ userId ++ ":".toList ++ text

/-- Python truthiness of a `get` result (`None` and `""` are falsy). -/
def pyTruthy (v : Option PyStr) : Bool :=
  match v with
  | some s => !s.isEmpty
  | none => false

/-- Step 2 of `process_message`: first exact key matching the normalized
text up to case and a trailing `！`/`!`. -/
def exactLookup (n : PyStr) : Option (PyStr × PyStr) :=
  exactMatches.find? (fun kv =>
    n == pyLower kv.1 || n == pyLower kv.1 ++ "！".toList || n == pyLower kv.1 ++ "!".toList)

/-- Step 3 of `process_message`: first pattern whose regex matches. -/
def patternLookup (n : PyStr) : Option (List PyStr × PyStr) :=
  patternMatches.find? (fun pr => pr.1.any (fun kw => strContains kw n))

/-- Step 4 of `process_message`: first FAQ question similar enough. -/
def faqLookup (n : PyStr) : Option (PyStr × PyStr) :=
  faqResponses.find? (fun qa => similarityCheck n (pyLower qa.1))

/-- The dict `process_message` returns on a hit (`processing_time`, a
wall-clock float, is omitted). -/
structure ProcessResult where
  result : PyStr
  intent : Option String
  source : String
deriving DecidableEq

/-- The mutable state of `UnifiedResponseService`. -/
structure RespService where
  responseCache : CacheState PyStr PyStr
  totalRequests : Nat
  quickResponseCount : Nat
  exactHits : Nat
  patternHits : Nat
  faqHits : Nat
  cacheHits : Nat

/-- A freshly constructed service (`SimpleCache(default_ttl=600)`). -/
def initialRespService : RespService :=
  ⟨emptyCache PyStr PyStr 600, 0, 0, 0, 0, 0, 0⟩

/-- `process_message`: eligibility gate, then cache → exact → pattern → FAQ,
caching every hit under `respCacheKey`. -/
def processMessage (svc : RespService) (userId text : PyStr) (now : Nat) :
    Option ProcessResult × RespService :=
  let svc1 := { svc with totalRequests := svc.totalRequests + 1 }
  if !shouldUseQuickResponse text then (none, svc1)
  else
    let ck := respCacheKey userId text
    let g := CacheState.get svc1.responseCache ck now
    let svc2 := { svc1 with responseCache := g.2 }
    if pyTruthy g.1 then
      (some ⟨g.1.getD [], quickIntentClassify text, "cache"⟩,
       { svc2 with cacheHits := svc2.cacheHits + 1,
                   quickResponseCount := svc2.quickResponseCount + 1 })
    else
      let n := pyStrip (pyLower text)
      match exactLookup n with
      | some kv =>
        (some ⟨kv.2, quickIntentClassify text, "exact_match"⟩,
         { svc2 with exactHits := svc2.exactHits + 1,
                     quickResponseCount := svc2.quickResponseCount + 1,
                     responseCache := CacheState.set svc2.responseCache ck (some kv.2) now })
      | none =>
        match patternLookup n with
        | some pr =>
          (some ⟨pr.2, quickIntentClassify text, "pattern_match"⟩,
           { svc2 with patternHits := svc2.patternHits + 1,
                       quickResponseCount := svc2.quickResponseCount + 1,
                       responseCache := CacheState.set svc2.responseCache ck (some pr.2) now })
        | none =>
          match faqLookup n with
          | some qa =>
            (some ⟨qa.2, quickIntentClassify text, "faq_match"⟩,
             { svc2 with faqHits := svc2.faqHits + 1,
                         quickResponseCount := svc2.quickResponseCount + 1,
                         responseCache := CacheState.set svc2.responseCache ck (some qa.2) now })
          | none => (none, svc2)

/-- The decorator's cache key `f"{func.__name__}_{md5(args_kwargs)}"`
(`md5` modelled as the identity, see the header). -/
def decoratorKey (fnName argsRepr : String) : String :=
  fnName ++ "_" ++ argsRepr

/-- One call through `SimpleCache.cache_decorator`'s wrapper: return the
cached value if it `is not None`, else compute, store and return. -/
def cacheDecoratorCall {σ : Type} (st : CacheState String σ) (fnName argsRepr : String)
    (f : Unit → Option σ) (now : Nat) : Option σ × CacheState String σ :=
  let g := CacheState.get st (decoratorKey fnName argsRepr) now
  if g.1.isSome then (g.1, g.2)
  else (f (), CacheState.set g.2 (decoratorKey fnName argsRepr) (f ()) now)

/-! ### Resolver lemmas and claims C3, C10 -/

theorem toNat_ofNat_of_valid {n : Nat} (h : n < 0xd800) : (Char.ofNat n).toNat = n := by
  rw [Char.ofNat, dif_pos (Or.inl h)]
  rfl

/-- ASCII lowercasing maps uppercase letters to letters and leaves every
other character alone, so it never changes whitespace-ness. -/
theorem pyIsSpace_toLower (c : Char) : pyIsSpace c.toLower = pyIsSpace c := by
  simp only [Char.toLower]
  by_cases h : c.toNat ≥ 65 ∧ c.toNat ≤ 90
  · rw [if_pos h]
    obtain ⟨h65, h90⟩ := h
    have hval : (Char.ofNat (c.toNat + 32)).toNat = c.toNat + 32 :=
      toNat_ofNat_of_valid (by omega)
    have hne : ∀ e : Char, e.toNat ≠ c.toNat + 32 →
        (Char.ofNat (c.toNat + 32) == e) = false := by
      intro e he
      refine beq_eq_false_iff_ne.mpr (fun heq => he ?_)
      rw [← heq, hval]
    have hnc : ∀ e : Char, e.toNat ≠ c.toNat → (c == e) = false := by
      intro e he
      refine beq_eq_false_iff_ne.mpr (fun heq => he ?_)
      rw [heq]
    have hsp : (' ' : Char).toNat = 32 := rfl
    have hta : ('\t' : Char).toNat = 9 := rfl
    have hnl : ('\n' : Char).toNat = 10 := rfl
    have hcr : ('\r' : Char).toNat = 13 := rfl
    have hvt : ('\x0b' : Char).toNat = 11 := rfl
    have hff : ('\x0c' : Char).toNat = 12 := rfl
    have h1 : pyIsSpace (Char.ofNat (c.toNat + 32)) = false := by
      rw [pyIsSpace, hne ' ' (by omega), hne '\t' (by omega), hne '\n' (by omega),
        hne '\r' (by omega), hne '\x0b' (by omega), hne '\x0c' (by omega)]
      rfl
    have h2 : pyIsSpace c = false := by
      rw [pyIsSpace, hnc ' ' (by omega), hnc '\t' (by omega), hnc '\n' (by omega),
        hnc '\r' (by omega), hnc '\x0b' (by omega), hnc '\x0c' (by omega)]
      rfl
    rw [h1, h2]
  · rw [if_neg h]

theorem pyLower_dropWhile (l : PyStr) :
    (pyLower l).dropWhile pyIsSpace = pyLower (l.dropWhile pyIsSpace) := by
  have hfun : (pyIsSpace ∘ Char.toLower) = pyIsSpace := funext pyIsSpace_toLower
  rw [pyLower, pyLower, List.dropWhile_map, hfun]

theorem pyLower_reverse (l : PyStr) : (pyLower l).reverse = pyLower l.reverse := by
  rw [pyLower, pyLower, List.map_reverse]

/-- Lowercasing commutes with stripping, so the eligibility gate (which
strips the raw text) and the exact matcher (which strips the lowered text)
see words of the same length. -/
theorem pyStrip_pyLower (l : PyStr) : pyStrip (pyLower l) = pyLower (pyStrip l) := by
  rw [pyStrip, pyStrip, pyLower_dropWhile, pyLower_reverse, pyLower_dropWhile,
    pyLower_reverse]

theorem length_pyStrip_pyLower (l : PyStr) :
    (pyStrip (pyLower l)).length = (pyStrip l).length := by
  rw [pyStrip_pyLower, pyLower, List.length_map]

/-- Every key of the exact-match table has at most 9 characters. -/
theorem exact_key_length_le (kv : PyStr × PyStr) (h : kv ∈ exactMatches) :
    (pyLower kv.1).length ≤ 9 := by
  simp only [exactMatches, List.mem_cons, List.not_mem_nil, or_false] at h
  rcases h with rfl | rfl | rfl | rfl | rfl | rfl | rfl | rfl <;> decide

/-- `set` leaves the `default_ttl` unchanged. -/
theorem cache_set_defaultTtl {κ σ : Type} [DecidableEq κ] (st : CacheState κ σ) (k : κ)
    (v : Option σ) (t : Nat) : (CacheState.set st k v t).defaultTtl = st.defaultTtl := by
  rw [CacheState.set]
  by_cases h : (aset k (v, t) st.cache).length > 100 <;> simp [h]

/-- After `set(k, v)` the table binds `k` to `(v, now)`. -/
theorem alookup_cache_set_self {κ σ : Type} [DecidableEq κ] (st : CacheState κ σ) (k : κ)
    (v : Option σ) (t : Nat) : alookup k (CacheState.set st k v t).cache = some (v, t) := by
  rw [CacheState.set]
  by_cases h : (aset k (v, t) st.cache).length > 100
  · rw [if_pos h]
    exact alookup_filter (alookup_aset_self k (v, t) st.cache) (by simp)
  · rw [if_neg h]
    exact alookup_aset_self k (v, t) st.cache

/-- A key whose stored value is `None` reads as `None` — whether or not the
entry is expired. -/
theorem get_stored_none {κ σ : Type} [DecidableEq κ] {st : CacheState κ σ} {k : κ} {ts : Nat}
    (h : alookup k st.cache = some (none, ts)) (now : Nat) :
    (CacheState.get st k now).1 = none := by
  rw [CacheState.get, h]
  by_cases hd : now - ts > st.defaultTtl <;> simp [hd]

theorem get_after_set_none {κ σ : Type} [DecidableEq κ] (st : CacheState κ σ) (k : κ)
    (t t2 : Nat) : (CacheState.get (CacheState.set st k none t) k t2).1 = none :=
  get_stored_none (alookup_cache_set_self st k none t) t2

/-- The core of claims C3 and C10(d): whenever the cache probe is falsy and
the normalized text hits the exact table, `process_message` answers from
the exact table, tagged `exact_match` — the eligibility gate passes
automatically because every exact key is short. -/
theorem processMessage_exact (svc : RespService) (userId text : PyStr) (now : Nat)
    (kv : PyStr × PyStr)
    (hcache : pyTruthy (CacheState.get svc.responseCache (respCacheKey userId text) now).1
      = false)
    (hexact : exactLookup (pyStrip (pyLower text)) = some kv) :
    (processMessage svc userId text now).1
      = some ⟨kv.2, quickIntentClassify text, "exact_match"⟩ := by
  have hkv : kv ∈ exactMatches := List.mem_of_find?_eq_some hexact
  have hpred := List.find?_some hexact
  simp only [Bool.or_eq_true, beq_iff_eq] at hpred
  have hk9 : (pyLower kv.1).length ≤ 9 := exact_key_length_le kv hkv
  have e1 : ("！".toList : PyStr).length = 1 := rfl
  have e2 : ("!".toList : PyStr).length = 1 := rfl
  have hlen : (pyStrip (pyLower text)).length ≤ 10 := by
    rcases hpred with (h | h) | h <;> rw [h] <;> (try simp only [List.length_append]) <;> omega
  have hgate : shouldUseQuickResponse text = true := by
    have hlt : (pyStrip text).length ≤ 10 := by
      have := length_pyStrip_pyLower text
      omega
    rw [shouldUseQuickResponse]
    simp [hlt]
  rw [processMessage]
  simp only [hgate, Bool.not_true, Bool.false_eq_true, if_false, hcache, hexact]

/-- **C3.** If the input both hits the exact-match table (case-insensitive,
tolerating a trailing `！`/`!`) and matches a pattern-table regex, and the
per-user cache probe misses, `process_message` returns the exact-table
response tagged with the exact-match source, not the pattern response. -/
theorem resolver_exact_match_wins (svc : RespService) (userId text : PyStr) (now : Nat)
    (kv : PyStr × PyStr) (pr : List PyStr × PyStr)
    (hcache : pyTruthy (CacheState.get svc.responseCache (respCacheKey userId text) now).1
      = false)
    (hexact : exactLookup (pyStrip (pyLower text)) = some kv)
    (_hpat : patternLookup (pyStrip (pyLower text)) = some pr) :
    (processMessage svc userId text now).1
      = some ⟨kv.2, quickIntentClassify text, "exact_match"⟩ ∧
    (processMessage svc userId text now).1
      ≠ some ⟨pr.2, quickIntentClassify text, "pattern_match"⟩ := by
  have hmain := processMessage_exact svc userId text now kv hcache hexact
  refine ⟨hmain, ?_⟩
  rw [hmain]
  intro hcon
  have hres := Option.some.inj hcon
  have hsrc : "exact_match" = "pattern_match" := congrArg ProcessResult.source hres
  exact absurd hsrc (by decide)

/-- Witness for C3: `"你好"` hits both the exact table and the first
pattern; the exact response wins (spec §8, Scenario A). -/
theorem resolver_exact_match_wins_witness :
    (processMessage initialRespService "U1".toList "你好".toList 0).1
      = some ⟨"您好！我是營養助手，可以幫您分析食物和管理卡路里。".toList,
              quickIntentClassify "你好".toList, "exact_match"⟩ :=
  (resolver_exact_match_wins initialRespService "U1".toList "你好".toList 0
    ("你好".toList, "您好！我是營養助手，可以幫您分析食物和管理卡路里。".toList)
    (["你好".toList, "哈囉".toList, "嗨".toList, "hi".toList, "hello".toList],
      "您好！我是您的營養助手，有什麼可以幫助您的嗎？".toList)
    rfl rfl rfl).1

/-- **C10.** A stored `None` is indistinguishable from absence at the `get`
interface: `get(k)` after `set(k, None)` returns `None` exactly like `get`
of a never-stored key; consequently the cache decorator recomputes (its
`is not None` test fails) and the resolver's truthiness test treats the
entry as a miss and recomputes (here: falls through to the exact table). -/
theorem cache_none_indistinguishable_from_absence
    (st stD stF : CacheState String String) (k fn args : String)
    (t tG tD tF : Nat) (f : Unit → Option String)
    (hF : alookup k stF.cache = none) :
    (CacheState.get (CacheState.set st k none t) k tG).1 = none ∧
    (CacheState.get stF k tF).1 = none ∧
    (cacheDecoratorCall (CacheState.set stD (decoratorKey fn args) none t) fn args f tD).1
      = f () ∧
    (∀ (svc : RespService) (userId text : PyStr) (now ts : Nat) (kv : PyStr × PyStr),
      alookup (respCacheKey userId text) svc.responseCache.cache = some (none, ts) →
      exactLookup (pyStrip (pyLower text)) = some kv →
      (processMessage svc userId text now).1
        = some ⟨kv.2, quickIntentClassify text, "exact_match"⟩) := by
  refine ⟨get_after_set_none st k t tG, ?_, ?_, ?_⟩
  · rw [CacheState.get, hF]
  · have hg : (CacheState.get (CacheState.set stD (decoratorKey fn args) none t)
        (decoratorKey fn args) tD).1 = none := get_after_set_none stD _ t tD
    rw [cacheDecoratorCall]
    simp only [hg, Option.isSome_none, Bool.false_eq_true, if_false]
  · intro svc userId text now ts kv hstore hexact
    have hc : pyTruthy (CacheState.get svc.responseCache (respCacheKey userId text) now).1
        = false := by
      rw [get_stored_none hstore now]
      rfl
    exact processMessage_exact svc userId text now kv hc hexact

/-- A resolver whose cache holds a stored `None` under the key for user
`U1` and text `你好`, used by the C10 witness. -/
def c10Service : RespService :=
  { initialRespService with
    responseCache :=
      CacheState.set (emptyCache PyStr PyStr 600) (respCacheKey "U1".toList "你好".toList)
        none 3 }

/-- Witness for C10 at concrete caches, keys and times. -/
theorem cache_none_indistinguishable_from_absence_witness :
    (CacheState.get (CacheState.set (emptyCache String String 300) "k" none 0) "k" 1).1
      = none ∧
    (CacheState.get (emptyCache String String 300) "k" 1).1 = none ∧
    (cacheDecoratorCall (CacheState.set (emptyCache String String 300)
        (decoratorKey "load" "args") none 0) "load" "args" (fun _ => some "recomputed") 1).1
      = some "recomputed" ∧
    (processMessage c10Service "U1".toList "你好".toList 5).1
      = some ⟨"您好！我是營養助手，可以幫您分析食物和管理卡路里。".toList,
              quickIntentClassify "你好".toList, "exact_match"⟩ := by
  have T := cache_none_indistinguishable_from_absence (emptyCache String String 300)
    (emptyCache String String 300) (emptyCache String String 300) "k" "load" "args"
    0 1 1 1 (fun _ => some "recomputed") rfl
  exact ⟨T.1, T.2.1, T.2.2.1,
    T.2.2.2 c10Service "U1".toList "你好".toList 5 3
      ("你好".toList, "您好！我是營養助手，可以幫您分析食物和管理卡路里。".toList) rfl rfl⟩

end LineBotFood
